import Mathlib

/-!
Verification of `src/assets/images/reshape_icon.py` (function `add_margin`).

The script opens an image, computes a 20% margin on each side
(`margin_w = int(width * 0.2)`, `margin_h = int(height * 0.2)`), allocates a
fully transparent RGBA canvas of size
`(width + 2*margin_w, height + 2*margin_h)`, pastes the source onto the canvas
at offset `(margin_w, margin_h)` using the source itself as the transparency
mask (`new_img.paste(img, (margin_w, margin_h), img)`), saves the result and
prints the new dimensions; the whole body sits in a `try` whose
`except Exception as e` prints `Error processing image: {e}` and returns
normally.

The paste step is the Pillow primitive `Image.paste(im, box, mask)`: with an
RGBA mask it blends every channel of the destination with the source under
the mask's alpha band using the exact integer arithmetic of
`libImaging/Paste.c` (`BLEND` / `MULDIV255`), and it raises
`ValueError("bad transparency mask")` when the mask mode is not one of
"1", "L", "LA", "RGBA".  Both behaviours are embedded below.
-/

namespace ReshapeIcon

/-- One pixel: red, green, blue and alpha channels.  Pillow stores each
channel as an unsigned 8-bit value; we use `Nat` — the blend arithmetic below
never overflows 8 bits when its inputs are below 256, so no masking occurs in
the C code and none is needed here. -/
structure RGBA where
  r : Nat
  g : Nat
  b : Nat
  a : Nat
deriving DecidableEq, Repr

/-- All channels fit in 8 bits, the invariant of every pixel Pillow decodes. -/
def RGBA.Valid (p : RGBA) : Prop :=
  p.r ≤ 255 ∧ p.g ≤ 255 ∧ p.b ≤ 255 ∧ p.a ≤ 255

instance (p : RGBA) : Decidable p.Valid := by
  unfold RGBA.Valid
  infer_instance

/-- The pixel modes the claims need.  `rgba` has an alpha band; `rgb` is
colour without alpha; `l` is 8-bit grayscale, `la` grayscale with alpha and
`one` bilevel (Pillow's "L", "LA" and "1").  Any of them is a valid paste
*source* (Pillow converts the source to the destination mode first), but as
a paste *mask* Pillow accepts only "1", "L", "LA" and "RGBA" — an RGB mask
raises `ValueError("bad transparency mask")`. -/
inductive Mode where
  | rgba
  | rgb
  | l
  | la
  | one
deriving DecidableEq, Repr

/-- An in-memory image as the script sees it: a mode, dimensions (`img.size`)
and a pixel grid.  Coordinates outside the grid are irrelevant to every
claim. -/
structure Img where
  mode : Mode
  width : Nat
  height : Nat
  pixel : Nat → Nat → RGBA

/-- The fill colour of the fresh canvas: `(0, 0, 0, 0)`. -/
def transparentBlack : RGBA := ⟨0, 0, 0, 0⟩

/-- Models `Image.new('RGBA', (w, h), (0, 0, 0, 0))`: a canvas whose every
pixel is fully transparent black. -/
def imageNew (w h : Nat) : Img :=
  ⟨Mode.rgba, w, h, fun _ _ => transparentBlack⟩

/-- Models `int(n * 0.2)` from the script.  Python evaluates `n * 0.2` in
double precision and `int` truncates toward zero; since `0.2` rounds to a
double slightly above 1/5, for every width an image can have (far below
2^50) the result is exactly `⌊n / 5⌋`, which we take as the definition. -/
def margin (n : Nat) : Nat := n / 5

/-- The `MULDIV255(x, m, tmp)` macro of Pillow's `libImaging`:
`tmp = x*m + 128; ((tmp >> 8) + tmp) >> 8`, an exact `round(x*m/255)` on
8-bit inputs. -/
def muldiv255 (x m : Nat) : Nat :=
  ((x * m + 128) / 256 + (x * m + 128)) / 256

/-- The `BLEND(mask, in1, in2, tmp)` macro of `libImaging/Paste.c`: the
destination channel `d` and source channel `s` mixed under mask value `m`. -/
def blend (m d s : Nat) : Nat :=
  muldiv255 d (255 - m) + muldiv255 s m

/-- One pixel of `paste_mask_RGBA`: every channel of the RGBA destination,
the alpha band included, is blended under the mask value `m`. -/
def blendPixel (m : Nat) (d s : RGBA) : RGBA :=
  ⟨blend m d.r s.r, blend m d.g s.g, blend m d.b s.b, blend m d.a s.a⟩

/-- The in-bounds part of Pillow's masked paste: inside the paste box
(clipped to the destination) the destination pixel is blended with the
source pixel under the mask's alpha band; outside it the destination is
untouched. -/
def pasteRegion (dst src mask : Img) (px py : Nat) : Img :=
  { dst with
    pixel := fun x y =>
      if px ≤ x ∧ x < px + src.width ∧ x < dst.width ∧
          py ≤ y ∧ y < py + src.height ∧ y < dst.height then
        blendPixel (mask.pixel (x - px) (y - py)).a (dst.pixel x y)
          (src.pixel (x - px) (y - py))
      else
        dst.pixel x y }

/-- The conversion `Image.paste` applies to the source when its mode differs
from the destination's: `im.convert(self.mode)` to RGBA.  Grayscale and
bilevel images carry their single band in the `r` field (and `la` its alpha
in `a`); conversion replicates the band into the colour channels and fills
missing alpha with 255 (fully opaque). -/
def srcToRGBA (img : Img) : Img :=
  match img.mode with
  | Mode.rgba => img
  | Mode.rgb =>
    { img with
      mode := Mode.rgba
      pixel := fun x y =>
        ⟨(img.pixel x y).r, (img.pixel x y).g, (img.pixel x y).b, 255⟩ }
  | Mode.l =>
    { img with
      mode := Mode.rgba
      pixel := fun x y =>
        ⟨(img.pixel x y).r, (img.pixel x y).r, (img.pixel x y).r, 255⟩ }
  | Mode.la =>
    { img with
      mode := Mode.rgba
      pixel := fun x y =>
        ⟨(img.pixel x y).r, (img.pixel x y).r, (img.pixel x y).r, (img.pixel x y).a⟩ }
  | Mode.one =>
    { img with
      mode := Mode.rgba
      pixel := fun x y =>
        ⟨(img.pixel x y).r, (img.pixel x y).r, (img.pixel x y).r, 255⟩ }

/-- The band `ImagingPaste` reads from an accepted mask: the alpha band of an
"RGBA" or "LA" mask, the single band of an "L" or "1" mask (a "1" band holds
only 0 or 255, where `BLEND` coincides with the hard copy of
`paste_mask_1`).  The `rgb` arm is never consulted: `paste` rejects RGB
masks before blending. -/
def maskValue (mask : Img) (x y : Nat) : Nat :=
  match mask.mode with
  | Mode.rgba => (mask.pixel x y).a
  | Mode.la => (mask.pixel x y).a
  | Mode.l => (mask.pixel x y).r
  | Mode.one => (mask.pixel x y).r
  | Mode.rgb => 0

/-- Pillow's masked paste for an accepted mask of any mode: the source is
first converted to the destination's RGBA mode, then blended under the
mask's band.  For an RGBA source used as its own mask this coincides
definitionally with `pasteRegion` (see `pasteMasked_rgba`). -/
def pasteMasked (dst src mask : Img) (px py : Nat) : Img :=
  { dst with
    pixel := fun x y =>
      if px ≤ x ∧ x < px + src.width ∧ x < dst.width ∧
          py ≤ y ∧ y < py + src.height ∧ y < dst.height then
        blendPixel (maskValue mask (x - px) (y - py)) (dst.pixel x y)
          ((srcToRGBA src).pixel (x - px) (y - py))
      else
        dst.pixel x y }

/-- Models `dst.paste(src, (px, py), mask)`.  Pillow accepts a mask of mode
"1", "L", "LA" or "RGBA" and raises `ValueError("bad transparency mask")`
for any other mask mode, such as RGB. -/
def paste (dst src mask : Img) (px py : Nat) : Except String Img :=
  match mask.mode with
  | Mode.rgb => Except.error ("bad transparency mask")
  | _ => Except.ok (pasteMasked dst src mask px py)

/-- The message printed by the `except` branch:
`print(f'Error processing image: {e}')`. -/
def errMsg (e : String) : String := "Error processing image: " ++ e

/-- The message printed on success:
`print(f'Created new image with dimensions {new_width}x{new_height}')`. -/
def successMsg (w h : Nat) : String :=
  "Created new image with dimensions " ++ toString w ++ "x" ++ toString h

/-- The pure transformation applied to a successfully decoded image when
every I/O step succeeds: margins, fresh transparent canvas, masked paste of
the image with itself as mask. -/
def add_margin_core (img : Img) : Img :=
  let margin_w := margin img.width
  let margin_h := margin img.height
  let new_width := img.width + 2 * margin_w
  let new_height := img.height + 2 * margin_h
  pasteRegion (imageNew new_width new_height) img img margin_w margin_h

/-- The observable outcome of one call of `add_margin`: either the call
returns normally, having written `written` to the output path (or nothing)
and printed `printed`, or an exception escapes it. -/
inductive Outcome where
  | normal (written : Option Img) (printed : String)
  | uncaught (e : String)

def Outcome.written : Outcome → Option Img
  | Outcome.normal w _ => w
  | Outcome.uncaught _ => none

def Outcome.printed : Outcome → String
  | Outcome.normal _ p => p
  | Outcome.uncaught _ => ""

/-- The `try` block of `add_margin`, parametrised by its three fallible
environment interactions: `decode` is the result of
`Image.open('Logo_Rounded.png')`, `alloc w h` the result of
`Image.new('RGBA', (w, h), (0, 0, 0, 0))`, and `save` the result of
`new_img.save('Logo_Rounded_with_margin.png', quality=95)` on the image it
is given.  An exception at any step aborts the rest of the block. -/
def add_margin_body (decode : Except String Img)
    (alloc : Nat → Nat → Except String Img)
    (save : Img → Except String Unit) : Except String (Img × Nat × Nat) := do
  let img ← decode
  let width := img.width
  let height := img.height
  let margin_w := margin width
  let margin_h := margin height
  let new_width := width + 2 * margin_w
  let new_height := height + 2 * margin_h
  let canvas ← alloc new_width new_height
  let new_img ← paste canvas img img margin_w margin_h
  let _ ← save new_img
  Except.ok (new_img, new_width, new_height)

/-- The whole of `add_margin`: the `try` block, and the catch-all
`except Exception as e: print(f'Error processing image: {e}')` which turns
every exception into a normal return with nothing written. -/
def add_margin (decode : Except String Img)
    (alloc : Nat → Nat → Except String Img)
    (save : Img → Except String Unit) : Outcome :=
  match add_margin_body decode alloc save with
  | Except.ok (img, w, h) => Outcome.normal (some img) (successMsg w h)
  | Except.error e => Outcome.normal none (errMsg e)

/-- The allocation step when it succeeds, as it does in every run that fits
in memory. -/
def okAlloc : Nat → Nat → Except String Img :=
  fun w h => Except.ok (imageNew w h)

/-- A save step that succeeds. -/
def okSave : Img → Except String Unit := fun _ => Except.ok ()

/-- A 1×1 fully opaque RGBA test image. -/
def img1x1 : Img := ⟨Mode.rgba, 1, 1, fun _ _ => ⟨1, 2, 3, 255⟩⟩

/-- A 7×7 opaque RGBA test image (spec scenario 2). -/
def img7 : Img := ⟨Mode.rgba, 7, 7, fun _ _ => ⟨255, 0, 0, 255⟩⟩

/-- A 10×10 opaque RGBA test image (spec scenario 1). -/
def img10 : Img := ⟨Mode.rgba, 10, 10, fun _ _ => ⟨255, 0, 0, 255⟩⟩

/-- A 1×1 RGBA test image with partial transparency, alpha 128
(spec scenario 4). -/
def img128 : Img := ⟨Mode.rgba, 1, 1, fun _ _ => ⟨10, 20, 30, 128⟩⟩

/-- A 4×4 RGBA test image: small enough that both margins are 0. -/
def img44 : Img := ⟨Mode.rgba, 4, 4, fun _ _ => ⟨9, 9, 9, 255⟩⟩

/-- A 3×3 RGBA test image. -/
def img3 : Img := ⟨Mode.rgba, 3, 3, fun _ _ => ⟨4, 5, 6, 255⟩⟩

/-- A 1×1 image of mode RGB: decodable, but it has no alpha band. -/
def imgRGB : Img := ⟨Mode.rgb, 1, 1, fun _ _ => ⟨5, 6, 7, 255⟩⟩

/-- A 1×1 grayscale (mode L) image: alpha-less, single band 200 in the `r`
field, the other fields unused. -/
def imgL : Img := ⟨Mode.l, 1, 1, fun _ _ => ⟨200, 0, 0, 0⟩⟩

/-- The dimension map of one application: `w ↦ w + 2 * int(w * 0.2)`. -/
def newDim (w : Nat) : Nat := w + 2 * margin w

lemma pasteMasked_rgba (dst : Img) (w h : Nat) (p : Nat → Nat → RGBA) (px py : Nat) :
    pasteMasked dst ⟨Mode.rgba, w, h, p⟩ ⟨Mode.rgba, w, h, p⟩ px py =
      pasteRegion dst ⟨Mode.rgba, w, h, p⟩ ⟨Mode.rgba, w, h, p⟩ px py := rfl

lemma muldiv255_left_zero (m : Nat) : muldiv255 0 m = 0 := by
  simp [muldiv255]

lemma muldiv255_right_zero (x : Nat) : muldiv255 x 0 = 0 := by
  simp [muldiv255]

lemma muldiv255_right_255 (x : Nat) (hx : x ≤ 255) : muldiv255 x 255 = x := by
  unfold muldiv255
  omega

lemma blend_mask_255 (d s : Nat) (hs : s ≤ 255) : blend 255 d s = s := by
  unfold blend
  rw [Nat.sub_self, muldiv255_right_zero, muldiv255_right_255 s hs, Nat.zero_add]

lemma blend_mask_zero (d s : Nat) (hd : d ≤ 255) : blend 0 d s = d := by
  unfold blend
  rw [Nat.sub_zero, muldiv255_right_zero, muldiv255_right_255 d hd, Nat.add_zero]

lemma add_margin_core_width (img : Img) :
    (add_margin_core img).width = img.width + 2 * margin img.width := rfl

lemma add_margin_core_height (img : Img) :
    (add_margin_core img).height = img.height + 2 * margin img.height := rfl

lemma add_margin_core_pixel_in (img : Img) (x y : Nat)
    (hx : x < img.width) (hy : y < img.height) :
    (add_margin_core img).pixel (margin img.width + x) (margin img.height + y) =
      blendPixel (img.pixel x y).a transparentBlack (img.pixel x y) := by
  have ex : margin img.width + x - margin img.width = x := by omega
  have ey : margin img.height + y - margin img.height = y := by omega
  simp only [add_margin_core, pasteRegion, imageNew]
  rw [if_pos (by omega), ex, ey]

lemma add_margin_core_pixel_out (img : Img) (x y : Nat)
    (h : x < margin img.width ∨ margin img.width + img.width ≤ x ∨
        y < margin img.height ∨ margin img.height + img.height ≤ y) :
    (add_margin_core img).pixel x y = transparentBlack := by
  simp only [add_margin_core, pasteRegion, imageNew]
  rw [if_neg]
  rintro ⟨h1, h2, h3, h4, h5, h6⟩
  omega

lemma add_margin_run_ok (img : Img) (save : Img → Except String Unit)
    (hmode : img.mode = Mode.rgba)
    (hsave : save (add_margin_core img) = Except.ok ()) :
    add_margin (Except.ok img) okAlloc save =
      Outcome.normal (some (add_margin_core img))
        (successMsg (add_margin_core img).width (add_margin_core img).height) := by
  obtain ⟨m, w, ht, p⟩ := img
  simp only at hmode
  subst hmode
  have hb : add_margin_body (Except.ok (⟨Mode.rgba, w, ht, p⟩ : Img)) okAlloc save =
      Except.bind (save (add_margin_core ⟨Mode.rgba, w, ht, p⟩))
        (fun _ => Except.ok (add_margin_core ⟨Mode.rgba, w, ht, p⟩,
          w + 2 * margin w, ht + 2 * margin ht)) := rfl
  unfold add_margin
  rw [hb, hsave]
  rfl

lemma blendPixel_opaque (s : RGBA) (hr : s.r ≤ 255) (hg : s.g ≤ 255)
    (hb : s.b ≤ 255) (ha : s.a ≤ 255) :
    blendPixel 255 transparentBlack s = s := by
  unfold blendPixel transparentBlack
  rw [blend_mask_255 _ _ hr, blend_mask_255 _ _ hg, blend_mask_255 _ _ hb,
    blend_mask_255 _ _ ha]

lemma blendPixel_clear (s : RGBA) : blendPixel 0 transparentBlack s = ⟨0, 0, 0, 0⟩ := by
  unfold blendPixel transparentBlack
  rw [blend_mask_zero _ _ (by norm_num), blend_mask_zero _ _ (by norm_num),
    blend_mask_zero _ _ (by norm_num), blend_mask_zero _ _ (by norm_num)]

/-- C1: for every valid input image of width W and height H (decoded in RGBA
mode) whose save step succeeds, the output image has dimensions exactly
(W + 2*int(0.2*W), H + 2*int(0.2*H)), and the success message reports
exactly those output dimensions. -/
theorem output_dimensions (img : Img) (save : Img → Except String Unit)
    (hmode : img.mode = Mode.rgba)
    (hsave : save (add_margin_core img) = Except.ok ()) :
    (add_margin_core img).width = img.width + 2 * margin img.width ∧
    (add_margin_core img).height = img.height + 2 * margin img.height ∧
    add_margin (Except.ok img) okAlloc save =
      Outcome.normal (some (add_margin_core img))
        (successMsg (add_margin_core img).width (add_margin_core img).height) :=
  ⟨rfl, rfl, add_margin_run_ok img save hmode hsave⟩

/-- Witness for C1: the run on the concrete 1×1 RGBA image. -/
theorem output_dimensions_witness :
    (add_margin_core img1x1).width = img1x1.width + 2 * margin img1x1.width ∧
    (add_margin_core img1x1).height = img1x1.height + 2 * margin img1x1.height ∧
    add_margin (Except.ok img1x1) okAlloc okSave =
      Outcome.normal (some (add_margin_core img1x1))
        (successMsg (add_margin_core img1x1).width (add_margin_core img1x1).height) :=
  output_dimensions img1x1 okSave rfl rfl

/-- C2: every pixel of the output strictly outside the rectangle
[margin_w, margin_w + W) × [margin_h, margin_h + H) is transparent black:
alpha = 0 and RGB = (0, 0, 0). -/
theorem border_transparent (img : Img) (x y : Nat)
    (h : x < margin img.width ∨ margin img.width + img.width ≤ x ∨
        y < margin img.height ∨ margin img.height + img.height ≤ y) :
    (add_margin_core img).pixel x y = ⟨0, 0, 0, 0⟩ :=
  add_margin_core_pixel_out img x y h

/-- Witness for C2: the top-left corner pixel of the margin of the 7×7 run. -/
theorem border_transparent_witness :
    (0 < margin img7.width ∨ margin img7.width + img7.width ≤ 0 ∨
        0 < margin img7.height ∨ margin img7.height + img7.height ≤ 0) ∧
    (add_margin_core img7).pixel 0 0 = ⟨0, 0, 0, 0⟩ :=
  ⟨by decide, border_transparent img7 0 0 (by decide)⟩

/-- C3: inside the pasted block at offset (margin_w, margin_h), every source
pixel with alpha = 255 appears unchanged, and every source pixel with
alpha = 0 stays fully transparent black. -/
theorem pasted_block_identity (img : Img) (x y : Nat)
    (hx : x < img.width) (hy : y < img.height)
    (hv : (img.pixel x y).Valid) :
    ((img.pixel x y).a = 255 →
      (add_margin_core img).pixel (margin img.width + x) (margin img.height + y) =
        img.pixel x y) ∧
    ((img.pixel x y).a = 0 →
      (add_margin_core img).pixel (margin img.width + x) (margin img.height + y) =
        ⟨0, 0, 0, 0⟩) := by
  obtain ⟨hr, hg, hb, ha⟩ := hv
  rw [add_margin_core_pixel_in img x y hx hy]
  refine ⟨fun h255 => ?_, fun h0 => ?_⟩
  · rw [h255]
    exact blendPixel_opaque _ hr hg hb ha
  · rw [h0]
    exact blendPixel_clear _

/-- Witness for C3: the opaque pixel of the 1×1 image reappears unchanged. -/
theorem pasted_block_identity_witness :
    (0 < img1x1.width ∧ 0 < img1x1.height ∧ (img1x1.pixel 0 0).Valid ∧
      (img1x1.pixel 0 0).a = 255) ∧
    (add_margin_core img1x1).pixel (margin img1x1.width + 0) (margin img1x1.height + 0) =
      img1x1.pixel 0 0 :=
  ⟨⟨by decide, by decide, by decide, rfl⟩,
    (pasted_block_identity img1x1 0 0 (by decide) (by decide) (by decide)).1 rfl⟩

lemma blendPixel_half (s : RGBA) (ha : s.a = 128) :
    blendPixel s.a transparentBlack s =
      ⟨muldiv255 s.r 128, muldiv255 s.g 128, muldiv255 s.b 128, 64⟩ := by
  obtain ⟨r, g, b, a⟩ := s
  simp only at ha
  subst ha
  have h64 : muldiv255 128 128 = 64 := by decide
  unfold blendPixel transparentBlack blend
  simp [muldiv255_left_zero, h64]

/-- C4 counterexample: the 1×1 image whose only pixel is (10, 20, 30, 128)
does not keep alpha 128 in the output: the masked paste blends it with the
transparent canvas and the output alpha is 64. -/
theorem alpha128_not_preserved :
    ((add_margin_core img128).pixel 0 0).a = 64 ∧
    ((add_margin_core img128).pixel 0 0).a ≠ 128 := by
  exact ⟨by decide, by decide⟩

/-- C4 amended: a source pixel with alpha = 128 appears at the same relative
position inside the pasted rectangle, but blended with the transparent
canvas instead of unchanged: each colour channel c becomes
MULDIV255(c, 128) ≈ c/2 and the alpha becomes MULDIV255(128, 128) = 64. -/
theorem alpha128_blend (img : Img) (x y : Nat)
    (hx : x < img.width) (hy : y < img.height)
    (ha : (img.pixel x y).a = 128) :
    (add_margin_core img).pixel (margin img.width + x) (margin img.height + y) =
      ⟨muldiv255 (img.pixel x y).r 128, muldiv255 (img.pixel x y).g 128,
        muldiv255 (img.pixel x y).b 128, 64⟩ := by
  rw [add_margin_core_pixel_in img x y hx hy]
  exact blendPixel_half _ ha

/-- Witness for the amended C4 at the concrete half-transparent image. -/
theorem alpha128_blend_witness :
    (0 < img128.width ∧ 0 < img128.height ∧ (img128.pixel 0 0).a = 128) ∧
    (add_margin_core img128).pixel (margin img128.width + 0) (margin img128.height + 0) =
      ⟨muldiv255 (img128.pixel 0 0).r 128, muldiv255 (img128.pixel 0 0).g 128,
        muldiv255 (img128.pixel 0 0).b 128, 64⟩ :=
  ⟨⟨by decide, by decide, rfl⟩, alpha128_blend img128 0 0 (by decide) (by decide) rfl⟩

/-- C5: the margin computation truncates toward zero: for every width W,
int(W * 0.2) is the floor of the real product, i.e. W / 5; in particular a
7×7 input gets margin 1 and a 9×9 output, and a 10×10 input gets margin 2
and a 14×14 output. -/
theorem margin_truncation (w : Nat) :
    ⌊(w : ℝ) * 0.2⌋₊ = margin w ∧
    margin 7 = 1 ∧ (add_margin_core img7).width = 9 ∧
    (add_margin_core img7).height = 9 ∧
    margin 10 = 2 ∧ (add_margin_core img10).width = 14 ∧
    (add_margin_core img10).height = 14 := by
  refine ⟨?_, by decide, by decide, by decide, by decide, by decide, by decide⟩
  rw [show (0.2 : ℝ) = 1 / 5 by norm_num, mul_one_div,
    show (5 : ℝ) = ((5 : Nat) : ℝ) by norm_num, Nat.floor_div_nat, Nat.floor_natCast]
  rfl

/-- C6 counterexample: a decodable 1×1 source of mode RGB (no alpha channel)
is not upgraded to RGBA: the paste step raises
ValueError('bad transparency mask'), the catch-all reports it, and no output
is written, so compositing does not succeed. -/
theorem rgb_source_not_upgraded :
    add_margin (Except.ok imgRGB) okAlloc okSave =
      Outcome.normal none (errMsg ("bad transparency mask")) := rfl

/-- C6 amended: the code performs no mode upgrade.  A decoded source of mode
RGB (colour without an alpha channel), passed as its own paste mask, makes
the paste step raise ValueError('bad transparency mask'); the failure is
caught and reported and nothing is written.  Grayscale alpha-less sources
are not rejected: an L-mode source is an accepted mask (its luminance band
becomes the blend weight) and the run writes an output — so only RGB-mode
sources fail, and in neither case is the source upgraded to fully opaque
RGBA before compositing. -/
theorem rgb_source_fails (img : Img) (save : Img → Except String Unit)
    (hmode : img.mode = Mode.rgb) :
    add_margin (Except.ok img) okAlloc save =
      Outcome.normal none (errMsg ("bad transparency mask")) ∧
    (add_margin (Except.ok imgL) okAlloc okSave).written.isSome = true := by
  obtain ⟨m, w, ht, p⟩ := img
  simp only at hmode
  subst hmode
  exact ⟨rfl, rfl⟩

/-- Witness for the amended C6: the RGB image fails before the save step is
even consulted, while the grayscale image passes the paste. -/
theorem rgb_source_fails_witness :
    add_margin (Except.ok imgRGB) okAlloc (fun _ => Except.error ("disk full")) =
      Outcome.normal none (errMsg ("bad transparency mask")) ∧
    (add_margin (Except.ok imgL) okAlloc okSave).written.isSome = true :=
  rgb_source_fails imgRGB (fun _ => Except.error ("disk full")) rfl

/-- C7: every failure in the body — decode, allocation, compositing or
encode — is caught at the top level: `add_margin` always returns normally
(never an uncaught exception), and whenever the body fails with cause e the
single generic message embedding e is reported, of the same shape for every
failure kind, with nothing written. -/
theorem failures_caught (decode : Except String Img)
    (alloc : Nat → Nat → Except String Img) (save : Img → Except String Unit) :
    (∃ w p, add_margin decode alloc save = Outcome.normal w p) ∧
    (∀ e, add_margin_body decode alloc save = Except.error e →
      add_margin decode alloc save = Outcome.normal none (errMsg e)) := by
  constructor
  · rcases h : add_margin_body decode alloc save with e | ⟨img, nw, nh⟩
    · exact ⟨none, errMsg e, by unfold add_margin; rw [h]⟩
    · exact ⟨some img, successMsg nw nh, by unfold add_margin; rw [h]⟩
  · intro e he
    unfold add_margin
    rw [he]

/-- Witness for C7: a failing decode is reported and not re-raised. -/
theorem failures_caught_witness :
    add_margin_body (Except.error ("boom")) okAlloc okSave = Except.error ("boom") ∧
    add_margin (Except.error ("boom")) okAlloc okSave =
      Outcome.normal none (errMsg ("boom")) :=
  ⟨rfl, (failures_caught (Except.error ("boom")) okAlloc okSave).2 ("boom") rfl⟩

/-- C8: when the decode step fails with message e (for a missing input file,
the underlying OS error names that file), the operation reports a failure
with e embedded verbatim and writes nothing, whatever the allocation and
save steps would have done — the destination path is untouched. -/
theorem missing_input_no_output (e : String)
    (alloc : Nat → Nat → Except String Img) (save : Img → Except String Unit) :
    add_margin (Except.error e) alloc save = Outcome.normal none (errMsg e) ∧
    ∃ s, errMsg e = s ++ e :=
  ⟨rfl, "Error processing image: ", rfl⟩

/-- C9 counterexample: for the 4×4 image both margins are int(4 * 0.2) = 0,
so the output dimensions stay 4×4 and re-applying the transformation to its
own output produces no further-enlarged image: dimensions do not grow for
every valid input. -/
theorem tiny_reapply_no_growth :
    (add_margin_core (add_margin_core img44)).width = (add_margin_core img44).width ∧
    (add_margin_core (add_margin_core img44)).height = (add_margin_core img44).height ∧
    (add_margin_core img44).width = img44.width ∧
    (add_margin_core img44).height = img44.height :=
  ⟨rfl, rfl, rfl, rfl⟩

lemma newDim_lt (w : Nat) (h : 5 ≤ w) : w < newDim w := by
  unfold newDim margin
  omega

lemma newDim_five (w : Nat) (h : 5 ≤ w) : 5 ≤ newDim w := by
  unfold newDim margin
  omega

lemma core_iter_width (n : Nat) (img : Img) :
    (add_margin_core^[n] img).width = newDim^[n] img.width := by
  induction n generalizing img with
  | zero => rfl
  | succ n ih =>
    rw [Function.iterate_succ_apply, Function.iterate_succ_apply,
      ih (add_margin_core img)]
    rfl

lemma core_iter_height (n : Nat) (img : Img) :
    (add_margin_core^[n] img).height = newDim^[n] img.height := by
  induction n generalizing img with
  | zero => rfl
  | succ n ih =>
    rw [Function.iterate_succ_apply, Function.iterate_succ_apply,
      ih (add_margin_core img)]
    rfl

lemma newDim_iter_lt (n : Nat) (w : Nat) (h : 5 ≤ w) :
    newDim^[n] w < newDim^[n + 1] w := by
  induction n generalizing w with
  | zero =>
    rw [Function.iterate_succ_apply, Function.iterate_zero_apply,
      Function.iterate_zero_apply]
    exact newDim_lt w h
  | succ n ih =>
    rw [Function.iterate_succ_apply, Function.iterate_succ_apply newDim (n + 1)]
    exact ih (newDim w) (newDim_five w h)

/-- C9 amended: dimensions never shrink, and for every input whose width
(resp. height) is at least 5 that dimension grows strictly with every
repeated application; for dimensions at most 4 the margin is 0 and the
dimension is unchanged, so strict growth does not hold for every valid
input. -/
theorem dims_monotone (img : Img) (n : Nat) :
    (img.width ≤ (add_margin_core img).width ∧
      img.height ≤ (add_margin_core img).height) ∧
    (5 ≤ img.width →
      (add_margin_core^[n] img).width < (add_margin_core^[n + 1] img).width) ∧
    (5 ≤ img.height →
      (add_margin_core^[n] img).height < (add_margin_core^[n + 1] img).height) := by
  refine ⟨⟨?_, ?_⟩, fun h => ?_, fun h => ?_⟩
  · rw [add_margin_core_width]
    omega
  · rw [add_margin_core_height]
    omega
  · rw [core_iter_width, core_iter_width]
    exact newDim_iter_lt n img.width h
  · rw [core_iter_height, core_iter_height]
    exact newDim_iter_lt n img.height h

/-- Witness for the amended C9: the first application to the 10×10 image
strictly enlarges both dimensions. -/
theorem dims_monotone_witness :
    5 ≤ img10.width ∧ 5 ≤ img10.height ∧
    (add_margin_core^[0] img10).width < (add_margin_core^[0 + 1] img10).width ∧
    (add_margin_core^[0] img10).height < (add_margin_core^[0 + 1] img10).height :=
  ⟨by decide, by decide, (dims_monotone img10 0).2.1 (by decide),
    (dims_monotone img10 0).2.2 (by decide)⟩

/-- C10: a source dimension of at most 4 gets margin int(w * 0.2) = 0 and is
left unchanged in the output, and no clamping or validation rejects such
degenerate inputs: the run still succeeds normally. -/
theorem tiny_margin_zero (img : Img) (save : Img → Except String Unit)
    (hmode : img.mode = Mode.rgba)
    (hsave : save (add_margin_core img) = Except.ok ()) :
    (img.width ≤ 4 → margin img.width = 0 ∧
      (add_margin_core img).width = img.width) ∧
    (img.height ≤ 4 → margin img.height = 0 ∧
      (add_margin_core img).height = img.height) ∧
    add_margin (Except.ok img) okAlloc save =
      Outcome.normal (some (add_margin_core img))
        (successMsg (add_margin_core img).width (add_margin_core img).height) := by
  refine ⟨fun hw => ?_, fun hh => ?_, add_margin_run_ok img save hmode hsave⟩
  · have hm : margin img.width = 0 := by
      unfold margin
      omega
    refine ⟨hm, ?_⟩
    rw [add_margin_core_width]
    omega
  · have hm : margin img.height = 0 := by
      unfold margin
      omega
    refine ⟨hm, ?_⟩
    rw [add_margin_core_height]
    omega

/-- Witness for C10: the 3×3 image keeps its dimensions and the run
succeeds. -/
theorem tiny_margin_zero_witness :
    img3.width ≤ 4 ∧ img3.height ≤ 4 ∧
    margin img3.width = 0 ∧ (add_margin_core img3).width = img3.width ∧
    margin img3.height = 0 ∧ (add_margin_core img3).height = img3.height ∧
    add_margin (Except.ok img3) okAlloc okSave =
      Outcome.normal (some (add_margin_core img3))
        (successMsg (add_margin_core img3).width (add_margin_core img3).height) := by
  have h := tiny_margin_zero img3 okSave rfl rfl
  exact ⟨by decide, by decide, (h.1 (by decide)).1, (h.1 (by decide)).2,
    (h.2.1 (by decide)).1, (h.2.1 (by decide)).2, h.2.2⟩

end ReshapeIcon
